import Mathlib

/-!
Verification development for the like/dislike toggle and comment-counter
consistency protocol of the SocialSpark dashboard (client/src/lib/interactions.ts
and client/src/lib/firestore.ts, with the data model from shared/schema.ts).

The Firestore document store is embedded shallowly:
* each document collection is a Lean list;
* document ids are natural numbers drawn from a fresh-id counter `nextId`
  (Firestore generates collision-free random ids client-side);
* `serverTimestamp()` is a `Nat` parameter `now` supplied to each operation;
* a `WriteBatch` is a list of write operations computed from a read snapshot
  and then committed all-or-nothing (`commitBatch` returns `Except`: on error
  the caller keeps the unmodified state);
* `FieldValue.increment(n)` on a possibly-absent numeric field maps
  `none` to `some n` and `some v` to `some (v + n)`, as in Firestore;
* `WriteBatch.update` on a missing document fails the whole commit, as in
  Firestore;
* a thrown exception that prevents the commit is an `Except.error` leaving
  the store unchanged.  In particular `toggleLike`'s reconciliation loop
  `existingLikes.docs.forEach(doc => ...)` shadows the imported `doc`
  function with its callback parameter and calls it as a function
  (firestore.ts line 927), so the call throws `TypeError` whenever the
  existing-reaction query returns any record (`Err.typeError`), and only
  the empty-query insert path ever commits.

Numeric document fields are `Option Int`: a field can be absent from a
document, and its value is a (possibly negative) integer.
-/

namespace SocialSpark

/-- `ContentType` from shared/schema.ts: `'thread' | 'video' | 'reel'`. -/
inductive ContentType
  | thread
  | video
  | reel
deriving DecidableEq, Repr

/-- The `contentType` enum of `likeSchema` in shared/schema.ts:
`'thread' | 'video' | 'reel' | 'comment'`. It also indexes the four
document collections that can own reaction counters. -/
inductive LikeCType
  | thread
  | video
  | reel
  | comment
deriving DecidableEq, Repr

/-- The inclusion of `ContentType` into the `likeSchema` content-type enum,
i.e. the `contentCollections` lookup restricted to the three content
collections (threads, videos, reels). -/
def ContentType.toLike : ContentType → LikeCType
  | .thread => .thread
  | .video => .video
  | .reel => .reel

/-- A document of the `likes` collection (`likeSchema` in shared/schema.ts):
`contentId`, `contentType`, `userUid`, `isLike`, `createdAt`, plus its
Firestore document id. -/
structure LikeRec where
  id : Nat
  contentId : Nat
  contentType : LikeCType
  userUid : String
  isLike : Bool
  createdAt : Nat
deriving DecidableEq, Repr

/-- A document of the threads/videos/reels/comments collections, restricted
to the fields the protocol reads or writes.  Counter fields are optional
integers (a Firestore document need not carry them); the comment payload
fields (`contentId`, `contentType`, `authorUid`, `text`, `parentCommentId`
from `commentSchema`) are present on comment documents and absent on
content documents.  Payload fields the protocol never touches (title,
description, media URLs) are omitted. -/
structure Doc where
  likes : Option Int
  dislikes : Option Int
  commentCount : Option Int
  contentId : Option Nat
  ctype : Option ContentType
  authorUid : Option String
  text : Option String
  parentCommentId : Option Nat
  createdAt : Nat
  updatedAt : Nat
deriving DecidableEq, Repr

/-- The Firestore database state: the four counter-carrying document
collections keyed by (collection, document id), the `likes` ledger
collection, and the fresh-id source. -/
structure DB where
  docs : List ((LikeCType × Nat) × Doc)
  likes : List LikeRec
  nextId : Nat
deriving DecidableEq, Repr

/-- The error taxonomy of the core, mapped from the thrown `Error` messages:
`authRequired` is "User must be authenticated to ...", `validationError` is
"Comment text cannot be empty", `notFound` is "Content not found",
`storeFailure` is a failed batch commit, and `typeError` is the rethrown
`TypeError: doc is not a function` raised inside `toggleLike`'s
reconciliation loop, whose callback parameter `doc` shadows the `doc`
function imported from firebase/firestore (firestore.ts line 927). -/
inductive Err
  | authRequired
  | validationError
  | notFound
  | storeFailure
  | typeError
deriving DecidableEq, Repr

/-- The three counter fields updated through `FieldValue.increment`. -/
inductive Field
  | likes
  | dislikes
  | commentCount
deriving DecidableEq, Repr

def Doc.getField (d : Doc) : Field → Option Int
  | .likes => d.likes
  | .dislikes => d.dislikes
  | .commentCount => d.commentCount

def Doc.setField (d : Doc) : Field → Option Int → Doc
  | .likes, v => { d with likes := v }
  | .dislikes, v => { d with dislikes := v }
  | .commentCount, v => { d with commentCount := v }

/-- One `updateDoc`-style field mutation: apply `increment n` to field `f`
(materialising an absent field at 0, as Firestore does) and, when the update
also carries `updatedAt: serverTimestamp()`, set `updatedAt` to `ts`. -/
def Doc.applyInc (d : Doc) (f : Field) (n : Int) (ts : Option Nat) : Doc :=
  let d1 := d.setField f (some ((d.getField f).getD 0 + n))
  match ts with
  | none => d1
  | some t => { d1 with updatedAt := t }

/-- Key-based lookup in a document collection. -/
def findDoc (l : List ((LikeCType × Nat) × Doc)) (k : LikeCType × Nat) : Option Doc :=
  (l.find? (fun e => decide (e.1 = k))).map (fun e => e.2)

/-- Point lookup of a document by (collection, id), i.e. `getDoc(doc(db, coll, id))`. -/
def getDocIn (db : DB) (k : LikeCType × Nat) : Option Doc :=
  findDoc db.docs k

/-- One write operation of a Firestore `WriteBatch`, specialised to the
writes the protocol issues: delete a `likes`-collection document by id,
set a `likes`-collection document, set a document in a counter-carrying
collection, or update counter fields via `increment` (optionally together
with an `updatedAt` timestamp). -/
inductive WriteOp
  | deleteLike (id : Nat)
  | setLike (r : LikeRec)
  | setDoc (k : LikeCType × Nat) (d : Doc)
  | updateInc (k : LikeCType × Nat) (f : Field) (n : Int) (ts : Option Nat)
deriving DecidableEq, Repr

/-- Apply one batched write to the database.  `update` on a missing document
is a failure (Firestore rejects the whole batch); `delete` and `set` never
fail. -/
def applyOp (db : DB) : WriteOp → Except Err DB
  | .deleteLike i => .ok { db with likes := db.likes.filter (fun r => decide (r.id ≠ i)) }
  | .setLike r =>
      .ok { db with likes := db.likes.filter (fun q => decide (q.id ≠ r.id)) ++ [r] }
  | .setDoc k d =>
      .ok { db with docs := db.docs.filter (fun e => decide (e.1 ≠ k)) ++ [(k, d)] }
  | .updateInc k f n ts =>
      match getDocIn db k with
      | none => .error .storeFailure
      | some _ =>
          .ok { db with
                docs := db.docs.map (fun e => if e.1 = k then (e.1, e.2.applyInc f n ts) else e) }

/-- `batch.commit()`: apply the queued writes in order; the commit is
all-or-nothing, so an error leaves the caller with the original state. -/
def commitBatch : List WriteOp → DB → Except Err DB
  | [], db => .ok db
  | op :: rest, db =>
      match applyOp db op with
      | .ok db2 => commitBatch rest db2
      | .error e => .error e

/-- `InsertLike` from shared/schema.ts (likeSchema minus id and createdAt). -/
structure InsertLike where
  contentId : Nat
  contentType : LikeCType
  userUid : String
  isLike : Bool
deriving DecidableEq, Repr

/-- The `where`-clauses of the existing-reaction query in `toggleLike`:
same `contentId`, `contentType` and `userUid`. -/
def likeMatches (ld : InsertLike) (r : LikeRec) : Bool :=
  decide (r.contentId = ld.contentId ∧ r.contentType = ld.contentType ∧ r.userUid = ld.userUid)

/-- The per-existing-record writes `toggleLike`'s reconciliation loop
(`existingLikes.docs.forEach`) is written to queue: delete the record, then
decrement the owning content document's `likes` counter if the deleted
record's `isLike` was true, else its `dislikes` counter.  These writes are
never committed: the loop body calls its callback parameter `doc` — which
shadows the imported `doc()` — as a function (firestore.ts line 927), so the
first iteration throws before `batch.commit()` is reached.  They are kept
here because they describe the batch the code builds, of which only the
no-existing-record instance (where this loop contributes nothing) is ever
committed. -/
def delOps (ld : InsertLike) (r : LikeRec) : List WriteOp :=
  [WriteOp.deleteLike r.id,
   WriteOp.updateInc (ld.contentType, ld.contentId)
     (if r.isLike then Field.likes else Field.dislikes) (-1) none]

/-- The insertion writes of `toggleLike`: set the new reaction record and
increment the matching counter together with `updatedAt: serverTimestamp()`. -/
def addOps (newId now : Nat) (ld : InsertLike) : List WriteOp :=
  [WriteOp.setLike ⟨newId, ld.contentId, ld.contentType, ld.userUid, ld.isLike, now⟩,
   WriteOp.updateInc (ld.contentType, ld.contentId)
     (if ld.isLike then Field.likes else Field.dislikes) 1 (some now)]

/-- `shouldAddNew` in `toggleLike`: write a new record iff the query found
nothing or some found record has a different `isLike` than requested. -/
def shouldAdd (ld : InsertLike) (existing : List LikeRec) : Bool :=
  existing.isEmpty || existing.any (fun r => r.isLike != ld.isLike)

/-- The write batch `toggleLike` (firestore.ts) builds from the snapshot
`db` returned by the existing-reaction query: for every existing record the
delete-and-decrement writes, then, iff `shouldAddNew`, the set-and-increment
writes.  `newId` is the client-generated id of the new `likes`-collection
document.  Only the empty-query instance of this batch (which is exactly
`addOps`, since the reconciliation loop then contributes nothing) is ever
committed — see `toggleLike`. -/
def toggleLikeBatch (newId now : Nat) (ld : InsertLike) (db : DB) : List WriteOp :=
  let existing := db.likes.filter (likeMatches ld)
  existing.flatMap (delOps ld) ++
    (if shouldAdd ld existing then addOps newId now ld else [])

/-- `toggleLike` (firestore.ts lines 901-975): query the existing reactions
for the tuple, then build and commit the write batch.  The reconciliation
loop is `existingLikes.docs.forEach(doc => ...)`: its callback parameter
`doc` shadows the `doc` function imported from firebase/firestore, so the
body's `doc(db, contentCollections[likeData.contentType],
likeData.contentId)` call (line 927) applies a `QueryDocumentSnapshot` as a
function and throws `TypeError: doc is not a function` on the first
iteration; the catch block rethrows and `batch.commit()` is never reached.
Hence whenever the query returns any record the call fails with the store
unchanged, and only the empty-query path — which skips the loop (the `doc`
used by the insert writes is the unshadowed import) — reaches the commit.
The fresh document id is drawn from `nextId`. -/
def toggleLike (ld : InsertLike) (now : Nat) (db : DB) : Except Err DB :=
  if (db.likes.filter (likeMatches ld)).isEmpty then
    commitBatch (toggleLikeBatch db.nextId now ld db) { db with nextId := db.nextId + 1 }
  else .error .typeError

/-- `InsertComment` from shared/schema.ts (commentSchema minus id, likes and
timestamps); its `contentType` is the three-valued `ContentType` enum. -/
structure InsertComment where
  contentId : Nat
  contentType : ContentType
  authorUid : String
  text : String
  parentCommentId : Option Nat
deriving DecidableEq, Repr

/-- The comment document written by `createComment`: the `InsertComment`
payload plus `likes: 0` and both timestamps. -/
def mkCommentDoc (cd : InsertComment) (now : Nat) : Doc :=
  { likes := some 0, dislikes := none, commentCount := none,
    contentId := some cd.contentId, ctype := some cd.contentType,
    authorUid := some cd.authorUid, text := some cd.text,
    parentCommentId := cd.parentCommentId, createdAt := now, updatedAt := now }

/-- `createComment` (firestore.ts lines 846-877): one batch that sets the
new comment document and updates the owning content document with
`commentCount: increment(1)` and `updatedAt: serverTimestamp()`.  Returns
the new comment's id. -/
def createComment (cd : InsertComment) (now : Nat) (db : DB) : Except Err (Nat × DB) :=
  let newId := db.nextId
  let ops := [WriteOp.setDoc (LikeCType.comment, newId) (mkCommentDoc cd now),
              WriteOp.updateInc (cd.contentType.toLike, cd.contentId) Field.commentCount 1
                (some now)]
  (commitBatch ops { db with nextId := db.nextId + 1 }).map (fun db2 => (newId, db2))

/-- `likeContent` (interactions.ts lines 19-36): `user` is the value of
`getCurrentUser()`; with no authenticated user the call throws before any
store access, otherwise it builds the `InsertLike` with `isLike: true` and
runs `toggleLike`. -/
def likeContent (user : Option String) (contentId : Nat) (ct : ContentType) (now : Nat)
    (db : DB) : Except Err DB :=
  match user with
  | none => .error .authRequired
  | some uid => toggleLike ⟨contentId, ct.toLike, uid, true⟩ now db

/-- `dislikeContent` (interactions.ts lines 38-55): as `likeContent` with
`isLike: false`. -/
def dislikeContent (user : Option String) (contentId : Nat) (ct : ContentType) (now : Nat)
    (db : DB) : Except Err DB :=
  match user with
  | none => .error .authRequired
  | some uid => toggleLike ⟨contentId, ct.toLike, uid, false⟩ now db

/-- JavaScript `String.prototype.trim()`: strip leading and trailing
whitespace.  (Lean's built-in `String.trim` is not kernel-reducible, so the
embedding uses this structurally recursive equivalent over the character
list; `Char.isWhitespace` covers the space/tab/newline/return class every
text in the claims exercises.) -/
def jsTrim (s : String) : String :=
  ⟨((s.data.dropWhile Char.isWhitespace).reverse.dropWhile Char.isWhitespace).reverse⟩

/-- `addComment` (interactions.ts lines 58-82): `user` is the value of
`getCurrentUser()`; the call throws with no authenticated user, then throws
`ValidationError` when `text.trim()` is empty, and otherwise runs
`createComment` on the trimmed text. -/
def addComment (user : Option String) (contentId : Nat) (ct : ContentType) (text : String)
    (parentCommentId : Option Nat) (now : Nat) (db : DB) : Except Err (Nat × DB) :=
  match user with
  | none => .error .authRequired
  | some uid =>
      if jsTrim text = "" then .error .validationError
      else createComment ⟨contentId, ct, uid, jsTrim text, parentCommentId⟩ now db

/-- `getContent` (firestore.ts lines 793-817): point read of a content
document from the collection selected by the three-valued `ContentType`. -/
def getContent (ct : ContentType) (id : Nat) (db : DB) : Option Doc :=
  getDocIn db (ct.toLike, id)

/-- JavaScript `x || 0` on a possibly-absent numeric field: an absent field
and a stored 0 both yield 0; any other stored integer is returned as is. -/
def jsOrZero : Option Int → Int
  | none => 0
  | some v => if v = 0 then 0 else v

/-- The result record of `getInteractionStats`. -/
structure Stats where
  likes : Int
  dislikes : Int
  comments : Int
deriving DecidableEq, Repr

/-- `getInteractionStats` (interactions.ts lines 137-159): read the content
document, fail with "Content not found" when it is absent, and return the
three counter fields defaulted through `|| 0`. -/
def getInteractionStats (contentId : Nat) (ct : ContentType) (db : DB) : Except Err Stats :=
  match getContent ct contentId db with
  | none => .error .notFound
  | some c => .ok ⟨jsOrZero c.likes, jsOrZero c.dislikes, jsOrZero c.commentCount⟩

/-- Models `createThread`/`createVideo`/`createReel` (firestore.ts): a new
content document with `likes: 0, dislikes: 0, commentCount: 0` and both
timestamps set; the three functions differ only in payload fields the
protocol never reads. -/
def createContentDoc (ct : ContentType) (now : Nat) (db : DB) : Nat × DB :=
  let newId := db.nextId
  let d : Doc :=
    { likes := some 0, dislikes := some 0, commentCount := some 0,
      contentId := none, ctype := none, authorUid := none, text := none,
      parentCommentId := none, createdAt := now, updatedAt := now }
  (newId,
   { db with
     docs := db.docs.filter (fun e => decide (e.1 ≠ (ct.toLike, newId))) ++ [((ct.toLike, newId), d)],
     nextId := db.nextId + 1 })

/-- The records of the `likes` ledger for one (contentId, contentType,
userUid) tuple. -/
def tupleRecs (db : DB) (ld : InsertLike) : List LikeRec :=
  db.likes.filter (likeMatches ld)

/-- Number of ledger records for an item with the given `isLike` polarity. -/
def ledgerCount (db : DB) (lct : LikeCType) (i : Nat) (pos : Bool) : Nat :=
  db.likes.countP (fun r =>
    decide (r.contentId = i ∧ r.contentType = lct ∧ r.isLike = pos))

/-- Number of comment documents referencing an item. -/
def logCount (db : DB) (ct : ContentType) (i : Nat) : Nat :=
  db.docs.countP (fun e =>
    decide (e.1.1 = LikeCType.comment ∧ e.2.contentId = some i ∧ e.2.ctype = some ct))

/-- Counter-ledger agreement: every existing content item's stored `likes`,
`dislikes` and `commentCount` equal the corresponding ledger/log counts. -/
def counterInv (db : DB) : Prop :=
  ∀ (ct : ContentType) (i : Nat) (d : Doc), getDocIn db (ct.toLike, i) = some d →
    d.likes = some (ledgerCount db ct.toLike i true : Int) ∧
    d.dislikes = some (ledgerCount db ct.toLike i false : Int) ∧
    d.commentCount = some (logCount db ct i : Int)

/-- Store well-formedness guaranteed by Firestore: document ids within a
collection are distinct, and ids yet to be generated are fresh. -/
def wf (db : DB) : Prop :=
  (db.likes.map (fun r => r.id)).Nodup ∧
  (∀ r ∈ db.likes, r.id < db.nextId) ∧
  (∀ e ∈ db.docs, e.1.2 < db.nextId)

/-- One completed client operation of the protocol, as issued by an
authenticated session: a reaction toggle or a comment append.  A failed
call leaves the store unchanged (the batch is all-or-nothing). -/
inductive OpCall
  | toggle (contentId : Nat) (ct : ContentType) (uid : String) (isLike : Bool) (now : Nat)
  | comment (contentId : Nat) (ct : ContentType) (uid : String) (text : String)
      (parent : Option Nat) (now : Nat)
deriving DecidableEq, Repr

def runOp (db : DB) : OpCall → DB
  | .toggle i ct u l now =>
      match toggleLike ⟨i, ct.toLike, u, l⟩ now db with
      | .ok db2 => db2
      | .error _ => db
  | .comment i ct u t p now =>
      match addComment (some u) i ct t p now db with
      | .ok (_, db2) => db2
      | .error _ => db

def runOps (db : DB) (ops : List OpCall) : DB :=
  ops.foldl runOp db

/-! ### Commit and lookup lemmas -/

theorem commitBatch_append (l1 l2 : List WriteOp) (db : DB) :
    commitBatch (l1 ++ l2) db =
      match commitBatch l1 db with
      | .ok db2 => commitBatch l2 db2
      | .error e => .error e := by
  induction l1 generalizing db with
  | nil => simp [commitBatch]
  | cons op rest ih =>
      simp only [List.cons_append, commitBatch]
      cases applyOp db op with
      | ok db2 => exact ih db2
      | error e => rfl

theorem findDoc_map_upd (l : List ((LikeCType × Nat) × Doc)) (key k : LikeCType × Nat)
    (g : Doc → Doc) :
    findDoc (l.map (fun e => if e.1 = key then (e.1, g e.2) else e)) k =
      if k = key then (findDoc l k).map g else findDoc l k := by
  unfold findDoc
  rw [List.find?_map]
  have hcomp :
      ((fun e : (LikeCType × Nat) × Doc => decide (e.1 = k)) ∘
        (fun e : (LikeCType × Nat) × Doc => if e.1 = key then (e.1, g e.2) else e)) =
      fun e : (LikeCType × Nat) × Doc => decide (e.1 = k) := by
    funext e
    by_cases h : e.1 = key <;> simp [h]
  rw [hcomp]
  cases hf : l.find? (fun e => decide (e.1 = k)) with
  | none => simp
  | some e =>
      have he : e.1 = k := by simpa using List.find?_some hf
      by_cases hk : k = key
      · subst hk
        simp [he]
      · have hne : e.1 ≠ key := by rw [he]; exact hk
        simp [hne, hk]

theorem findDoc_append (l1 l2 : List ((LikeCType × Nat) × Doc)) (k : LikeCType × Nat) :
    findDoc (l1 ++ l2) k = (findDoc l1 k).or (findDoc l2 k) := by
  unfold findDoc
  rw [List.find?_append]
  cases l1.find? (fun e => decide (e.1 = k)) <;> simp

theorem map_upd_upd (l : List ((LikeCType × Nat) × Doc)) (key : LikeCType × Nat)
    (g1 g2 : Doc → Doc) :
    (l.map (fun e => if e.1 = key then (e.1, g1 e.2) else e)).map
        (fun e => if e.1 = key then (e.1, g2 e.2) else e) =
      l.map (fun e => if e.1 = key then (e.1, g2 (g1 e.2)) else e) := by
  rw [List.map_map]
  have hcomp :
      ((fun e : (LikeCType × Nat) × Doc => if e.1 = key then (e.1, g2 e.2) else e) ∘
        (fun e : (LikeCType × Nat) × Doc => if e.1 = key then (e.1, g1 e.2) else e)) =
      fun e : (LikeCType × Nat) × Doc => if e.1 = key then (e.1, g2 (g1 e.2)) else e := by
    funext e
    by_cases h : e.1 = key <;> simp [h]
  rw [hcomp]

/-! ### Document transformation lemmas -/

theorem applyInc_likes (d : Doc) (n : Int) (ts : Option Nat) :
    d.applyInc Field.likes n ts =
      { d with likes := some (d.likes.getD 0 + n), updatedAt := ts.getD d.updatedAt } := by
  cases ts <;> rfl

theorem applyInc_dislikes (d : Doc) (n : Int) (ts : Option Nat) :
    d.applyInc Field.dislikes n ts =
      { d with dislikes := some (d.dislikes.getD 0 + n), updatedAt := ts.getD d.updatedAt } := by
  cases ts <;> rfl

theorem applyInc_commentCount (d : Doc) (n : Int) (ts : Option Nat) :
    d.applyInc Field.commentCount n ts =
      { d with commentCount := some (d.commentCount.getD 0 + n),
               updatedAt := ts.getD d.updatedAt } := by
  cases ts <;> rfl

/-! ### Effect of a toggle -/

theorem applyInc_createdAt (d : Doc) (f : Field) (n : Int) (ts : Option Nat) :
    (d.applyInc f n ts).createdAt = d.createdAt := by
  cases f <;> cases ts <;> rfl

theorem applyInc_updatedAt_some (d : Doc) (f : Field) (n : Int) (t : Nat) :
    (d.applyInc f n (some t)).updatedAt = t := by
  cases f <;> rfl

theorem toggleLike_typeError (ld : InsertLike) (now : Nat) (db : DB)
    (h : tupleRecs db ld ≠ []) :
    toggleLike ld now db = .error .typeError := by
  unfold toggleLike
  have h' : ¬((db.likes.filter (likeMatches ld)).isEmpty = true) :=
    fun hc => h (List.isEmpty_iff.mp hc)
  rw [if_neg h']

theorem toggleLike_err (ld : InsertLike) (now : Nat) (db : DB)
    (hempty : tupleRecs db ld = [])
    (hd : getDocIn db (ld.contentType, ld.contentId) = none) :
    toggleLike ld now db = .error .storeFailure := by
  unfold toggleLike
  have hemp : db.likes.filter (likeMatches ld) = [] := hempty
  rw [hemp, if_pos (show ([] : List LikeRec).isEmpty = true from rfl)]
  have hbatch : toggleLikeBatch db.nextId now ld db = addOps db.nextId now ld := by
    show (db.likes.filter (likeMatches ld)).flatMap (delOps ld) ++
      (if shouldAdd ld (db.likes.filter (likeMatches ld))
       then addOps db.nextId now ld else []) = addOps db.nextId now ld
    rw [hemp]
    rfl
  rw [hbatch]
  have h1 : getDocIn
      { docs := db.docs,
        likes := db.likes.filter (fun q0 => decide (q0.id ≠ db.nextId)) ++
          [⟨db.nextId, ld.contentId, ld.contentType, ld.userUid, ld.isLike, now⟩],
        nextId := db.nextId + 1 } (ld.contentType, ld.contentId) = none := hd
  simp only [addOps, commitBatch, applyOp, h1]

theorem toggleLike_ok_eq (ld : InsertLike) (now : Nat) (db : DB) (d : Doc)
    (hbound : ∀ r ∈ db.likes, r.id < db.nextId)
    (hempty : tupleRecs db ld = [])
    (hd : getDocIn db (ld.contentType, ld.contentId) = some d) :
    toggleLike ld now db = .ok
      { docs := db.docs.map (fun e =>
          if e.1 = (ld.contentType, ld.contentId)
          then (e.1, e.2.applyInc (if ld.isLike then Field.likes else Field.dislikes) 1
            (some now))
          else e),
        likes := db.likes ++
          [⟨db.nextId, ld.contentId, ld.contentType, ld.userUid, ld.isLike, now⟩],
        nextId := db.nextId + 1 } := by
  unfold toggleLike
  have hemp : db.likes.filter (likeMatches ld) = [] := hempty
  rw [hemp, if_pos (show ([] : List LikeRec).isEmpty = true from rfl)]
  have hbatch : toggleLikeBatch db.nextId now ld db = addOps db.nextId now ld := by
    show (db.likes.filter (likeMatches ld)).flatMap (delOps ld) ++
      (if shouldAdd ld (db.likes.filter (likeMatches ld))
       then addOps db.nextId now ld else []) = addOps db.nextId now ld
    rw [hemp]
    rfl
  rw [hbatch]
  have hfid : db.likes.filter (fun q0 => decide (q0.id ≠ db.nextId)) = db.likes := by
    apply List.filter_eq_self.mpr
    intro r hr
    have := hbound r hr
    simp
    omega
  have h1 : getDocIn
      { docs := db.docs,
        likes := db.likes ++
          [⟨db.nextId, ld.contentId, ld.contentType, ld.userUid, ld.isLike, now⟩],
        nextId := db.nextId + 1 } (ld.contentType, ld.contentId) = some d := hd
  simp only [addOps, commitBatch, applyOp, h1, hfid]

/-! ### Net effect of a committed comment append -/

theorem createComment_ok_eq (cd : InsertComment) (now : Nat) (db : DB) (d : Doc)
    (hdocs : ∀ e ∈ db.docs, e.1.2 < db.nextId)
    (hd : getDocIn db (cd.contentType.toLike, cd.contentId) = some d) :
    createComment cd now db = .ok (db.nextId,
      { docs := (db.docs ++ [((LikeCType.comment, db.nextId), mkCommentDoc cd now)]).map
          (fun e => if e.1 = (cd.contentType.toLike, cd.contentId)
            then (e.1, e.2.applyInc Field.commentCount 1 (some now)) else e),
        likes := db.likes,
        nextId := db.nextId + 1 }) := by
  have hfd : db.docs.filter (fun e => decide (e.1 ≠ (LikeCType.comment, db.nextId))) =
      db.docs := by
    apply List.filter_eq_self.mpr
    intro e he
    have hlt := hdocs e he
    simp only [decide_eq_true_eq]
    intro h1
    rw [h1] at hlt
    simp at hlt
  have hd2 : getDocIn
      { docs := db.docs ++ [((LikeCType.comment, db.nextId), mkCommentDoc cd now)],
        likes := db.likes,
        nextId := db.nextId + 1 } (cd.contentType.toLike, cd.contentId) = some d := by
    show findDoc (db.docs ++ [((LikeCType.comment, db.nextId), mkCommentDoc cd now)])
        (cd.contentType.toLike, cd.contentId) = some d
    rw [findDoc_append]
    simp only [getDocIn] at hd
    rw [hd]
    rfl
  simp only [createComment, commitBatch, applyOp, hfd, hd2]
  rfl

theorem toLike_ne_comment (ct : ContentType) : ct.toLike ≠ LikeCType.comment := by
  cases ct <;> simp [ContentType.toLike]

theorem toLike_inj {a b : ContentType} (h : a.toLike = b.toLike) : a = b := by
  cases a <;> cases b <;> simp_all [ContentType.toLike]

theorem findDoc_filter_ne (l : List ((LikeCType × Nat) × Doc)) (k0 k : LikeCType × Nat)
    (h : k ≠ k0) :
    findDoc (l.filter (fun e => decide (e.1 ≠ k0))) k = findDoc l k := by
  unfold findDoc
  rw [List.find?_filter]
  apply congrArg
  apply congrFun
  apply congrArg
  funext e
  by_cases he : e.1 = k <;> simp [he, h]

theorem createComment_err (cd : InsertComment) (now : Nat) (db : DB)
    (hd : getDocIn db (cd.contentType.toLike, cd.contentId) = none) :
    createComment cd now db = .error .storeFailure := by
  have hd2 : getDocIn
      { docs := db.docs.filter (fun e => decide (e.1 ≠ (LikeCType.comment, db.nextId))) ++
          [((LikeCType.comment, db.nextId), mkCommentDoc cd now)],
        likes := db.likes,
        nextId := db.nextId + 1 } (cd.contentType.toLike, cd.contentId) = none := by
    show findDoc _ (cd.contentType.toLike, cd.contentId) = none
    rw [findDoc_append, findDoc_filter_ne]
    · simp only [getDocIn] at hd
      rw [hd]
      show findDoc [((LikeCType.comment, db.nextId), mkCommentDoc cd now)]
          (cd.contentType.toLike, cd.contentId) = none
      have hne : (LikeCType.comment, db.nextId) ≠ (cd.contentType.toLike, cd.contentId) := by
        intro hc
        exact toLike_ne_comment cd.contentType (by rw [← (Prod.mk.injEq _ _ _ _).mp hc |>.1])
      simp [findDoc, hne]
    · intro hc
      exact toLike_ne_comment cd.contentType (by
        have := (Prod.mk.injEq _ _ _ _).mp hc
        rw [this.1])
  simp only [createComment, commitBatch, applyOp, hd2]
  rfl

theorem applyInc_contentId (d : Doc) (f : Field) (n : Int) (ts : Option Nat) :
    (d.applyInc f n ts).contentId = d.contentId := by
  cases f <;> cases ts <;> rfl

theorem applyInc_ctype (d : Doc) (f : Field) (n : Int) (ts : Option Nat) :
    (d.applyInc f n ts).ctype = d.ctype := by
  cases f <;> cases ts <;> rfl

/-! ### Well-formedness preservation -/

theorem wf_toggle_ok (ld : InsertLike) (now : Nat) (db : DB)
    (hwf : wf db) :
    wf { docs := db.docs.map (fun e =>
           if e.1 = (ld.contentType, ld.contentId)
           then (e.1, e.2.applyInc (if ld.isLike then Field.likes else Field.dislikes) 1
             (some now))
           else e),
         likes := db.likes ++
           [⟨db.nextId, ld.contentId, ld.contentType, ld.userUid, ld.isLike, now⟩],
         nextId := db.nextId + 1 } := by
  obtain ⟨hnodup, hbound, hdocs⟩ := hwf
  refine ⟨?_, ?_, ?_⟩
  · show ((db.likes ++
        [(⟨db.nextId, ld.contentId, ld.contentType, ld.userUid, ld.isLike,
          now⟩ : LikeRec)]).map (fun r => r.id)).Nodup
    rw [List.map_append, List.nodup_append]
    refine ⟨hnodup, by simp, ?_⟩
    intro x hx
    obtain ⟨r, hr, hrx⟩ := List.mem_map.mp hx
    have hb := hbound r hr
    simp only [List.map_cons, List.map_nil, List.mem_singleton]
    omega
  · show ∀ r ∈ db.likes ++
        [(⟨db.nextId, ld.contentId, ld.contentType, ld.userUid, ld.isLike,
          now⟩ : LikeRec)], r.id < db.nextId + 1
    intro r hr
    rcases List.mem_append.mp hr with h | h
    · have := hbound r h
      omega
    · simp at h
      rw [h]
      show db.nextId < db.nextId + 1
      omega
  · show ∀ e ∈ db.docs.map (fun e =>
        if e.1 = (ld.contentType, ld.contentId)
        then (e.1, e.2.applyInc (if ld.isLike then Field.likes else Field.dislikes) 1
          (some now))
        else e), e.1.2 < db.nextId + 1
    intro e he
    obtain ⟨e0, he0, hee⟩ := List.mem_map.mp he
    have hlt := hdocs e0 he0
    by_cases hk : e0.1 = (ld.contentType, ld.contentId)
    · rw [if_pos hk] at hee
      rw [← hee]
      show e0.1.2 < db.nextId + 1
      omega
    · rw [if_neg hk] at hee
      rw [← hee]
      omega

theorem wf_comment_ok (cd : InsertComment) (now : Nat) (db : DB)
    (hwf : wf db) :
    wf { docs := (db.docs ++ [((LikeCType.comment, db.nextId), mkCommentDoc cd now)]).map
           (fun e => if e.1 = (cd.contentType.toLike, cd.contentId)
             then (e.1, e.2.applyInc Field.commentCount 1 (some now)) else e),
         likes := db.likes,
         nextId := db.nextId + 1 } := by
  obtain ⟨hnodup, hbound, hdocs⟩ := hwf
  refine ⟨hnodup, ?_, ?_⟩
  · show ∀ r ∈ db.likes, r.id < db.nextId + 1
    intro r hr
    have := hbound r hr
    omega
  · show ∀ e ∈ (db.docs ++ [((LikeCType.comment, db.nextId), mkCommentDoc cd now)]).map
        (fun e => if e.1 = (cd.contentType.toLike, cd.contentId)
          then (e.1, e.2.applyInc Field.commentCount 1 (some now)) else e), e.1.2 < db.nextId + 1
    intro e he
    obtain ⟨e0, he0, hee⟩ := List.mem_map.mp he
    have he0b : e0.1.2 < db.nextId + 1 := by
      rcases List.mem_append.mp he0 with h | h
      · have := hdocs e0 h
        omega
      · simp at h
        rw [h]
        show db.nextId < db.nextId + 1
        omega
    by_cases hk : e0.1 = (cd.contentType.toLike, cd.contentId)
    · rw [if_pos hk] at hee
      rw [← hee]
      show e0.1.2 < db.nextId + 1
      exact he0b
    · rw [if_neg hk] at hee
      rw [← hee]
      exact he0b

/-! ### Counting lemmas for counter-ledger agreement -/

theorem logCount_map_inc (key : LikeCType × Nat) (f : Field) (n : Int) (ts : Option Nat)
    (l : List ((LikeCType × Nat) × Doc)) (ct : ContentType) (i : Nat) :
    (l.map (fun e => if e.1 = key then (e.1, e.2.applyInc f n ts) else e)).countP (fun e =>
      decide (e.1.1 = LikeCType.comment ∧ e.2.contentId = some i ∧ e.2.ctype = some ct)) =
    l.countP (fun e =>
      decide (e.1.1 = LikeCType.comment ∧ e.2.contentId = some i ∧ e.2.ctype = some ct)) := by
  rw [List.countP_map]
  apply List.countP_congr
  intro e _
  by_cases hk : e.1 = key
  · simp [Function.comp, hk, applyInc_contentId, applyInc_ctype]
  · simp [Function.comp, hk]

theorem logCount_map_comment (cd : InsertComment) (now : Nat) (nid : Nat)
    (l : List ((LikeCType × Nat) × Doc)) (ct : ContentType) (i : Nat) :
    ((l ++ [((LikeCType.comment, nid), mkCommentDoc cd now)]).map
        (fun e => if e.1 = (cd.contentType.toLike, cd.contentId)
          then (e.1, e.2.applyInc Field.commentCount 1 (some now)) else e)).countP (fun e =>
      decide (e.1.1 = LikeCType.comment ∧ e.2.contentId = some i ∧ e.2.ctype = some ct)) =
    l.countP (fun e =>
        decide (e.1.1 = LikeCType.comment ∧ e.2.contentId = some i ∧ e.2.ctype = some ct)) +
      (if i = cd.contentId ∧ ct = cd.contentType then 1 else 0) := by
  rw [List.map_append, List.countP_append]
  have h1 : (l.map (fun e => if e.1 = (cd.contentType.toLike, cd.contentId)
      then (e.1, e.2.applyInc Field.commentCount 1 (some now)) else e)).countP (fun e =>
        decide (e.1.1 = LikeCType.comment ∧ e.2.contentId = some i ∧ e.2.ctype = some ct)) =
      l.countP (fun e =>
        decide (e.1.1 = LikeCType.comment ∧ e.2.contentId = some i ∧ e.2.ctype = some ct)) := by
    rw [List.countP_map]
    apply List.countP_congr
    intro e _
    by_cases hk : e.1 = (cd.contentType.toLike, cd.contentId)
    · simp [Function.comp, hk, applyInc_contentId, applyInc_ctype]
    · simp [Function.comp, hk]
  rw [h1]
  have hck : ((LikeCType.comment, nid) : LikeCType × Nat) ≠
      (cd.contentType.toLike, cd.contentId) := by
    intro hc
    exact toLike_ne_comment cd.contentType
      (((Prod.mk.injEq _ _ _ _).mp hc).1.symm)
  simp only [List.map_cons, List.map_nil, if_neg hck, List.countP_cons, List.countP_nil]
  by_cases hmatch : i = cd.contentId ∧ ct = cd.contentType
  · simp [mkCommentDoc, hmatch.1.symm, hmatch.2.symm]
  · rw [if_neg hmatch]
    simp only [mkCommentDoc]
    simp
    tauto

/-! ### Counter-ledger agreement is preserved -/

theorem counterInv_toggle_ok (ld : InsertLike) (now : Nat) (db db2 : DB)
    (hwf : wf db) (hinv : counterInv db)
    (hok : toggleLike ld now db = .ok db2) : counterInv db2 := by
  obtain ⟨hnodup, hbound, hdocsb⟩ := hwf
  by_cases hE : tupleRecs db ld = []
  · cases hdoc : getDocIn db (ld.contentType, ld.contentId) with
    | none =>
        rw [toggleLike_err ld now db hE hdoc] at hok
        cases hok
    | some d0 =>
        have heq := toggleLike_ok_eq ld now db d0 hbound hE hdoc
        rw [heq] at hok
        have hdb2 := (Except.ok.injEq _ _).mp hok
        have hdocs2 : db2.docs = db.docs.map (fun e =>
            if e.1 = (ld.contentType, ld.contentId)
            then (e.1, e.2.applyInc (if ld.isLike then Field.likes else Field.dislikes) 1
              (some now))
            else e) := by
          rw [← hdb2]
        have hlikes2 : db2.likes = db.likes ++
            [⟨db.nextId, ld.contentId, ld.contentType, ld.userUid, ld.isLike, now⟩] := by
          rw [← hdb2]
        intro ct2 i2 d2 hfind2
        have hlook := findDoc_map_upd db.docs (ld.contentType, ld.contentId)
          (ct2.toLike, i2)
          (fun d0 => d0.applyInc (if ld.isLike then Field.likes else Field.dislikes) 1
            (some now))
        have hfind2b : (if ((ct2.toLike, i2) : LikeCType × Nat) = (ld.contentType, ld.contentId)
            then (findDoc db.docs (ct2.toLike, i2)).map
              (fun d0 => d0.applyInc (if ld.isLike then Field.likes else Field.dislikes) 1
                (some now))
            else findDoc db.docs (ct2.toLike, i2)) = some d2 := by
          rw [← hlook, ← hdocs2]
          exact hfind2
        have hlog : logCount db2 ct2 i2 = logCount db ct2 i2 := by
          show db2.docs.countP _ = db.docs.countP _
          rw [hdocs2]
          exact logCount_map_inc (ld.contentType, ld.contentId)
            (if ld.isLike then Field.likes else Field.dislikes) 1 (some now) db.docs ct2 i2
        by_cases hk : ((ct2.toLike, i2) : LikeCType × Nat) = (ld.contentType, ld.contentId)
        · rw [if_pos hk, hk] at hfind2b
          have hfd0 : findDoc db.docs (ld.contentType, ld.contentId) = some d0 := hdoc
          rw [hfd0] at hfind2b
          have hd2 : d2 = d0.applyInc (if ld.isLike then Field.likes else Field.dislikes) 1
              (some now) := by
            simpa using hfind2b.symm
          have hki := (Prod.mk.injEq _ _ _ _).mp hk
          obtain ⟨hL0, hD0, hC0⟩ := hinv ct2 i2 d0 (by
            show findDoc db.docs (ct2.toLike, i2) = some d0
            rw [hk]
            exact hfd0)
          have hledT : ledgerCount db2 ct2.toLike i2 true =
              ledgerCount db ct2.toLike i2 true + (if ld.isLike then 1 else 0) := by
            show db2.likes.countP _ = db.likes.countP _ + _
            rw [hlikes2, List.countP_append]
            congr 1
            simp only [List.countP_cons, List.countP_nil, Nat.zero_add]
            rw [hki.2, hki.1]
            cases hl : ld.isLike <;> simp [hl]
          have hledF : ledgerCount db2 ct2.toLike i2 false =
              ledgerCount db ct2.toLike i2 false + (if ld.isLike then 0 else 1) := by
            show db2.likes.countP _ = db.likes.countP _ + _
            rw [hlikes2, List.countP_append]
            congr 1
            simp only [List.countP_cons, List.countP_nil, Nat.zero_add]
            rw [hki.2, hki.1]
            cases hl : ld.isLike <;> simp [hl]
          cases hl : ld.isLike
          · simp only [hl, Bool.false_eq_true, if_false] at hd2 hledT hledF
            rw [applyInc_dislikes] at hd2
            refine ⟨?_, ?_, ?_⟩
            · rw [hd2, hledT, Nat.add_zero]
              show d0.likes = some ((ledgerCount db ct2.toLike i2 true : Nat) : Int)
              exact hL0
            · rw [hd2, hledF]
              show some (d0.dislikes.getD 0 + 1) =
                some ((ledgerCount db ct2.toLike i2 false + 1 : Nat) : Int)
              rw [hD0]
              show some ((ledgerCount db ct2.toLike i2 false : Nat) + (1 : Int)) =
                some ((ledgerCount db ct2.toLike i2 false + 1 : Nat) : Int)
              rfl
            · rw [hd2, hlog]
              show d0.commentCount = some ((logCount db ct2 i2 : Nat) : Int)
              exact hC0
          · simp only [hl, if_true] at hd2 hledT hledF
            rw [applyInc_likes] at hd2
            refine ⟨?_, ?_, ?_⟩
            · rw [hd2, hledT]
              show some (d0.likes.getD 0 + 1) =
                some ((ledgerCount db ct2.toLike i2 true + 1 : Nat) : Int)
              rw [hL0]
              show some ((ledgerCount db ct2.toLike i2 true : Nat) + (1 : Int)) =
                some ((ledgerCount db ct2.toLike i2 true + 1 : Nat) : Int)
              rfl
            · rw [hd2, hledF, Nat.add_zero]
              show d0.dislikes = some ((ledgerCount db ct2.toLike i2 false : Nat) : Int)
              exact hD0
            · rw [hd2, hlog]
              show d0.commentCount = some ((logCount db ct2 i2 : Nat) : Int)
              exact hC0
        · rw [if_neg hk] at hfind2b
          obtain ⟨hL0, hD0, hC0⟩ := hinv ct2 i2 d2 hfind2b
          have hne : ¬(i2 = ld.contentId ∧ ct2.toLike = ld.contentType) := by
            intro hc
            exact hk (by rw [hc.1, hc.2])
          have hled : ∀ pos : Bool, ledgerCount db2 ct2.toLike i2 pos =
              ledgerCount db ct2.toLike i2 pos := by
            intro pos
            show db2.likes.countP _ = db.likes.countP _
            rw [hlikes2, List.countP_append]
            have h0 : List.countP (fun r =>
                decide (r.contentId = i2 ∧ r.contentType = ct2.toLike ∧ r.isLike = pos))
                [(⟨db.nextId, ld.contentId, ld.contentType, ld.userUid, ld.isLike,
                  now⟩ : LikeRec)] = 0 := by
              simp only [List.countP_cons, List.countP_nil, Nat.zero_add]
              simp
              intro h1 h2
              exact absurd ⟨h1.symm, h2.symm⟩ hne
            rw [h0, Nat.add_zero]
          refine ⟨?_, ?_, ?_⟩
          · rw [hled true]
            exact hL0
          · rw [hled false]
            exact hD0
          · rw [hlog]
            exact hC0
  · rw [toggleLike_typeError ld now db hE] at hok
    cases hok

theorem counterInv_comment_ok (cd : InsertComment) (now : Nat) (db db2 : DB) (nid : Nat)
    (hwf : wf db) (hinv : counterInv db)
    (hok : createComment cd now db = .ok (nid, db2)) : counterInv db2 := by
  obtain ⟨hnodup, hbound, hdocsb⟩ := hwf
  cases hdoc : getDocIn db (cd.contentType.toLike, cd.contentId) with
  | none =>
      rw [createComment_err cd now db hdoc] at hok
      cases hok
  | some d0 =>
      have heq := createComment_ok_eq cd now db d0 hdocsb hdoc
      rw [heq] at hok
      have hpair := (Except.ok.injEq _ _).mp hok
      have hdb2 := ((Prod.mk.injEq _ _ _ _).mp hpair).2
      have hdocs2 : db2.docs =
          (db.docs ++ [((LikeCType.comment, db.nextId), mkCommentDoc cd now)]).map
          (fun e => if e.1 = (cd.contentType.toLike, cd.contentId)
            then (e.1, e.2.applyInc Field.commentCount 1 (some now)) else e) := by
        rw [← hdb2]
      have hlikes2 : db2.likes = db.likes := by
        rw [← hdb2]
      intro ct2 i2 d2 hfind2
      have hmap := findDoc_map_upd
        (db.docs ++ [((LikeCType.comment, db.nextId), mkCommentDoc cd now)])
        (cd.contentType.toLike, cd.contentId) (ct2.toLike, i2)
        (fun dd => dd.applyInc Field.commentCount 1 (some now))
      have happ := findDoc_append db.docs
        [((LikeCType.comment, db.nextId), mkCommentDoc cd now)] (ct2.toLike, i2)
      have hcknone : findDoc [((LikeCType.comment, db.nextId), mkCommentDoc cd now)]
          (ct2.toLike, i2) = none := by
        have hne : ¬(((LikeCType.comment, db.nextId) : LikeCType × Nat) = (ct2.toLike, i2)) := by
          intro hc
          exact toLike_ne_comment ct2 (((Prod.mk.injEq _ _ _ _).mp hc).1.symm)
        simp [findDoc, hne]
      have happ2 : findDoc (db.docs ++ [((LikeCType.comment, db.nextId), mkCommentDoc cd now)])
          (ct2.toLike, i2) = findDoc db.docs (ct2.toLike, i2) := by
        rw [happ, hcknone]
        cases findDoc db.docs (ct2.toLike, i2) <;> rfl
      have hfind2b : (if ((ct2.toLike, i2) : LikeCType × Nat) =
            (cd.contentType.toLike, cd.contentId)
          then (findDoc db.docs (ct2.toLike, i2)).map
            (fun dd => dd.applyInc Field.commentCount 1 (some now))
          else findDoc db.docs (ct2.toLike, i2)) = some d2 := by
        rw [← happ2, ← hmap, ← hdocs2]
        exact hfind2
      have hled : ∀ pos : Bool, ledgerCount db2 ct2.toLike i2 pos =
          ledgerCount db ct2.toLike i2 pos := by
        intro pos
        show db2.likes.countP _ = db.likes.countP _
        rw [hlikes2]
      have hlog : logCount db2 ct2 i2 = logCount db ct2 i2 +
          (if i2 = cd.contentId ∧ ct2 = cd.contentType then 1 else 0) := by
        show db2.docs.countP _ = _
        rw [hdocs2]
        exact logCount_map_comment cd now db.nextId db.docs ct2 i2
      by_cases hk : ((ct2.toLike, i2) : LikeCType × Nat) = (cd.contentType.toLike, cd.contentId)
      · rw [if_pos hk, hk] at hfind2b
        have hfd0 : findDoc db.docs (cd.contentType.toLike, cd.contentId) = some d0 := hdoc
        rw [hfd0] at hfind2b
        have hd2 : d2 = d0.applyInc Field.commentCount 1 (some now) := by
          simpa using hfind2b.symm
        have hki := (Prod.mk.injEq _ _ _ _).mp hk
        have hct2 : ct2 = cd.contentType := toLike_inj hki.1
        obtain ⟨hL0, hD0, hC0⟩ := hinv ct2 i2 d0 (by
          show findDoc db.docs (ct2.toLike, i2) = some d0
          rw [hk]
          exact hfd0)
        rw [applyInc_commentCount] at hd2
        refine ⟨?_, ?_, ?_⟩
        · rw [hd2]
          show d0.likes = some (ledgerCount db2 ct2.toLike i2 true : Int)
          rw [hled true]
          exact hL0
        · rw [hd2]
          show d0.dislikes = some (ledgerCount db2 ct2.toLike i2 false : Int)
          rw [hled false]
          exact hD0
        · rw [hd2]
          show some (d0.commentCount.getD 0 + 1) = some (logCount db2 ct2 i2 : Int)
          rw [hC0]
          rw [hlog, if_pos ⟨hki.2, hct2⟩]
          simp
      · rw [if_neg hk] at hfind2b
        obtain ⟨hL0, hD0, hC0⟩ := hinv ct2 i2 d2 hfind2b
        have hnolog : ¬(i2 = cd.contentId ∧ ct2 = cd.contentType) := by
          intro hc
          exact hk (by rw [hc.1, hc.2])
        refine ⟨?_, ?_, ?_⟩
        · rw [hled true]
          exact hL0
        · rw [hled false]
          exact hD0
        · rw [hlog, if_neg hnolog, Nat.add_zero]
          exact hC0

theorem counterInv_runOp (db : DB) (op : OpCall) (hwf : wf db) (hinv : counterInv db) :
    counterInv (runOp db op) := by
  cases op with
  | toggle i ct u l now =>
      cases hres : toggleLike ⟨i, ct.toLike, u, l⟩ now db with
      | ok db2 =>
          simp only [runOp, hres]
          exact counterInv_toggle_ok ⟨i, ct.toLike, u, l⟩ now db db2 hwf hinv hres
      | error e =>
          simp only [runOp, hres]
          exact hinv
  | comment i ct u t p now =>
      simp only [runOp, addComment]
      by_cases ht : jsTrim t = ""
      · simp only [ht, if_pos rfl]
        exact hinv
      · rw [if_neg ht]
        cases hres : createComment ⟨i, ct, u, jsTrim t, p⟩ now db with
        | ok pr =>
            simp only [hres]
            exact counterInv_comment_ok ⟨i, ct, u, jsTrim t, p⟩ now db pr.2 pr.1 hwf hinv
              (by rw [hres])
        | error e =>
            simp only [hres]
            exact hinv

theorem wf_runOp (db : DB) (op : OpCall) (hwf : wf db) : wf (runOp db op) := by
  cases op with
  | toggle i ct u l now =>
      by_cases hE : tupleRecs db ⟨i, ct.toLike, u, l⟩ = []
      · cases hdoc : getDocIn db (ContentType.toLike ct, i) with
        | none =>
            have herr := toggleLike_err ⟨i, ct.toLike, u, l⟩ now db hE hdoc
            simp only [runOp, herr]
            exact hwf
        | some d =>
            obtain ⟨hnodup, hbound, hdocsb⟩ := hwf
            have hok := toggleLike_ok_eq ⟨i, ct.toLike, u, l⟩ now db d hbound hE hdoc
            simp only [runOp, hok]
            exact wf_toggle_ok ⟨i, ct.toLike, u, l⟩ now db ⟨hnodup, hbound, hdocsb⟩
      · have herr := toggleLike_typeError ⟨i, ct.toLike, u, l⟩ now db hE
        simp only [runOp, herr]
        exact hwf
  | comment i ct u t p now =>
      simp only [runOp, addComment]
      by_cases ht : jsTrim t = ""
      · simp only [ht, if_pos rfl]
        exact hwf
      · rw [if_neg ht]
        cases hdoc : getDocIn db (ContentType.toLike ct, i) with
        | none =>
            have herr := createComment_err ⟨i, ct, u, jsTrim t, p⟩ now db hdoc
            simp only [herr]
            exact hwf
        | some d =>
            have hok := createComment_ok_eq ⟨i, ct, u, jsTrim t, p⟩ now db d hwf.2.2 hdoc
            simp only [hok]
            exact wf_comment_ok ⟨i, ct, u, jsTrim t, p⟩ now db hwf

theorem counterInv_runOps (db : DB) (ops : List OpCall) (hwf : wf db) (hinv : counterInv db) :
    counterInv (runOps db ops) := by
  induction ops generalizing db with
  | nil => exact hinv
  | cons op rest ih =>
      exact ih (runOp db op) (wf_runOp db op hwf) (counterInv_runOp db op hwf hinv)

/-! ### Toggles from a clean tuple state -/

theorem toggleLike_clean (ld : InsertLike) (now : Nat) (db : DB) (d : Doc) (L Dk : Int)
    (hwf : wf db) (hempty : tupleRecs db ld = [])
    (hd : getDocIn db (ld.contentType, ld.contentId) = some d)
    (hL : d.likes = some L) (hD : d.dislikes = some Dk) :
    ∃ db1, toggleLike ld now db = .ok db1 ∧
      db1.likes = db.likes ++
        [⟨db.nextId, ld.contentId, ld.contentType, ld.userUid, ld.isLike, now⟩] ∧
      db1.nextId = db.nextId + 1 ∧
      wf db1 ∧
      getDocIn db1 (ld.contentType, ld.contentId) = some
        { d with likes := some (L + if ld.isLike then 1 else 0),
                 dislikes := some (Dk + if ld.isLike then 0 else 1),
                 updatedAt := now } ∧
      tupleRecs db1 ld =
        [⟨db.nextId, ld.contentId, ld.contentType, ld.userUid, ld.isLike, now⟩] := by
  obtain ⟨hnodup, hbound, hdocsb⟩ := hwf
  have hok := toggleLike_ok_eq ld now db d hbound hempty hd
  refine ⟨_, hok, rfl, rfl, ?_, ?_, ?_⟩
  · exact wf_toggle_ok ld now db ⟨hnodup, hbound, hdocsb⟩
  · show findDoc (db.docs.map (fun e =>
        if e.1 = (ld.contentType, ld.contentId)
        then (e.1, (fun d0 =>
          d0.applyInc (if ld.isLike then Field.likes else Field.dislikes) 1 (some now)) e.2)
        else e)) (ld.contentType, ld.contentId) = _
    have hmap := findDoc_map_upd db.docs (ld.contentType, ld.contentId)
      (ld.contentType, ld.contentId)
      (fun d0 => d0.applyInc (if ld.isLike then Field.likes else Field.dislikes) 1 (some now))
    rw [hmap, if_pos rfl]
    have hfd : findDoc db.docs (ld.contentType, ld.contentId) = some d := hd
    rw [hfd]
    show some (d.applyInc (if ld.isLike then Field.likes else Field.dislikes) 1 (some now)) = _
    obtain ⟨dL, dD, dC, dCid, dTy, dAu, dTx, dP, dCr, dUp⟩ := d
    simp only at hL hD
    subst hL
    subst hD
    cases hl : ld.isLike <;>
      simp [hl, Doc.applyInc, Doc.setField, Doc.getField]
  · show (db.likes ++
        [(⟨db.nextId, ld.contentId, ld.contentType, ld.userUid, ld.isLike,
          now⟩ : LikeRec)]).filter (likeMatches ld) =
      [⟨db.nextId, ld.contentId, ld.contentType, ld.userUid, ld.isLike, now⟩]
    rw [List.filter_append]
    have h1 : db.likes.filter (likeMatches ld) = [] := hempty
    rw [h1, List.nil_append]
    simp [likeMatches]

theorem jsOrZero_zero (o : Option Int) (h : o = none ∨ o = some 0) : jsOrZero o = 0 := by
  rcases h with h | h <;> simp [jsOrZero, h]

theorem jsOrZero_nonneg (o : Option Int) (h : 0 ≤ o.getD 0) : 0 ≤ jsOrZero o := by
  cases o with
  | none => simp [jsOrZero]
  | some v =>
      simp [jsOrZero]
      simp at h
      split <;> omega

/-! ### Claim theorems -/

/-- C3: the deciding read of `toggleLike` (`getDocs` of the existing-reaction
query) is not part of the write batch; `writeBatch` makes the writes atomic
but gives the read no transactional isolation.  Evaluating the code on the
failing interleaving: two concurrent `toggleReaction(contentId 0, thread,
user "A", isLike true)` calls whose queries both complete (against the empty
ledger) before either batch commits.  Both decide to insert, both commits
succeed, and the final state holds two ReactionRecords for the tuple and
`likes = 2` — the second call did not see a ledger state consistent with the
first call's commit, violating the required serialization. -/
theorem c3_read_outside_batch_interleaving :
    commitBatch (toggleLikeBatch 1 100 ⟨0, LikeCType.thread, "A", true⟩
        ⟨[((LikeCType.thread, 0),
            ⟨some 0, some 0, some 0, none, none, none, none, none, 0, 0⟩)], [], 1⟩)
        ⟨[((LikeCType.thread, 0),
            ⟨some 0, some 0, some 0, none, none, none, none, none, 0, 0⟩)], [], 1⟩ =
      .ok ⟨[((LikeCType.thread, 0),
            ⟨some 1, some 0, some 0, none, none, none, none, none, 0, 100⟩)],
          [⟨1, 0, LikeCType.thread, "A", true, 100⟩], 1⟩ ∧
    commitBatch (toggleLikeBatch 2 100 ⟨0, LikeCType.thread, "A", true⟩
        ⟨[((LikeCType.thread, 0),
            ⟨some 0, some 0, some 0, none, none, none, none, none, 0, 0⟩)], [], 1⟩)
        ⟨[((LikeCType.thread, 0),
            ⟨some 1, some 0, some 0, none, none, none, none, none, 0, 100⟩)],
          [⟨1, 0, LikeCType.thread, "A", true, 100⟩], 1⟩ =
      .ok ⟨[((LikeCType.thread, 0),
            ⟨some 2, some 0, some 0, none, none, none, none, none, 0, 100⟩)],
          [⟨1, 0, LikeCType.thread, "A", true, 100⟩,
           ⟨2, 0, LikeCType.thread, "A", true, 100⟩], 1⟩ ∧
    (tupleRecs ⟨[((LikeCType.thread, 0),
            ⟨some 2, some 0, some 0, none, none, none, none, none, 0, 100⟩)],
          [⟨1, 0, LikeCType.thread, "A", true, 100⟩,
           ⟨2, 0, LikeCType.thread, "A", true, 100⟩], 1⟩
        ⟨0, LikeCType.thread, "A", true⟩).length = 2 := by
  refine ⟨rfl, rfl, by decide⟩

/-- C6: `addComment` on text whose trim is empty fails with `ValidationError`
before touching the store; the operation leaves the database unchanged, so
no CommentRecord is created and `commentCount` is untouched. -/
theorem c6_empty_comment_rejected (uid : String) (contentId : Nat) (ct : ContentType)
    (text : String) (parent : Option Nat) (now : Nat) (db : DB)
    (htrim : jsTrim text = "") :
    addComment (some uid) contentId ct text parent now db = .error .validationError ∧
    runOp db (OpCall.comment contentId ct uid text parent now) = db := by
  have h1 : addComment (some uid) contentId ct text parent now db =
      .error .validationError := by
    simp [addComment, htrim]
  exact ⟨h1, by simp [runOp, h1]⟩

/-- Witness for C6 at text `"   "`. -/
theorem c6_empty_comment_rejected_witness :
    addComment (some "A") 0 ContentType.thread "   " none 5
        ⟨[((LikeCType.thread, 0),
            ⟨some 0, some 0, some 0, none, none, none, none, none, 0, 0⟩)], [], 1⟩ =
      .error .validationError ∧
    runOp ⟨[((LikeCType.thread, 0),
            ⟨some 0, some 0, some 0, none, none, none, none, none, 0, 0⟩)], [], 1⟩
        (OpCall.comment 0 ContentType.thread "A" "   " none 5) =
      ⟨[((LikeCType.thread, 0),
            ⟨some 0, some 0, some 0, none, none, none, none, none, 0, 0⟩)], [], 1⟩ :=
  c6_empty_comment_rejected "A" 0 ContentType.thread "   " none 5 _ (by decide)

/-- C7: every mutating operation (`likeContent`, `dislikeContent`,
`addComment`) called with no authenticated user (`getCurrentUser()` null)
fails with `AuthenticationRequired`; the failure happens before any store
access, so no ledger, log or counter mutation occurs (the call returns no
new state). -/
theorem c7_auth_required (contentId : Nat) (ct : ContentType) (text : String)
    (parent : Option Nat) (now : Nat) (db : DB) :
    likeContent none contentId ct now db = .error .authRequired ∧
    dislikeContent none contentId ct now db = .error .authRequired ∧
    addComment none contentId ct text parent now db = .error .authRequired :=
  ⟨rfl, rfl, rfl⟩

/-- C8: `getInteractionStats` is a pure read: it fails with `NotFound` when
the item does not exist, otherwise returns exactly the stored counter fields
defaulted through `|| 0`; its result is independent of the `likes` ledger
(and, being a function of the state, it mutates nothing). -/
theorem c8_stats_pure_read (contentId : Nat) (ct : ContentType) (db : DB) :
    (getContent ct contentId db = none →
      getInteractionStats contentId ct db = .error .notFound) ∧
    (∀ d : Doc, getContent ct contentId db = some d →
      getInteractionStats contentId ct db =
        .ok ⟨jsOrZero d.likes, jsOrZero d.dislikes, jsOrZero d.commentCount⟩) ∧
    (∀ likes2 : List LikeRec,
      getInteractionStats contentId ct { db with likes := likes2 } =
        getInteractionStats contentId ct db) := by
  refine ⟨?_, ?_, ?_⟩
  · intro h
    simp [getInteractionStats, h]
  · intro d h
    simp [getInteractionStats, h]
  · intro likes2
    rfl

/-- Witness for C8: the found and not-found branches at concrete states. -/
theorem c8_stats_pure_read_witness :
    getInteractionStats 0 ContentType.thread
        ⟨[((LikeCType.thread, 0),
            ⟨some 3, some 1, some 2, none, none, none, none, none, 0, 0⟩)], [], 1⟩ =
      .ok ⟨3, 1, 2⟩ ∧
    getInteractionStats 5 ContentType.video
        ⟨[((LikeCType.thread, 0),
            ⟨some 3, some 1, some 2, none, none, none, none, none, 0, 0⟩)], [], 1⟩ =
      .error .notFound := by
  constructor
  · exact (c8_stats_pure_read 0 ContentType.thread
      ⟨[((LikeCType.thread, 0),
          ⟨some 3, some 1, some 2, none, none, none, none, none, 0, 0⟩)], [], 1⟩).2.1
      ⟨some 3, some 1, some 2, none, none, none, none, none, 0, 0⟩ rfl
  · exact (c8_stats_pure_read 5 ContentType.video
      ⟨[((LikeCType.thread, 0),
          ⟨some 3, some 1, some 2, none, none, none, none, none, 0, 0⟩)], [], 1⟩).1 rfl

/-- C9 fails on the code: the spec's pure-removal toggle case (requesting
the same reaction twice) is supposed to be a ContentItem mutation that bumps
`updatedAt`; in the code that call finds the existing record, the
reconciliation loop calls its shadowed `doc` callback parameter as a
function (firestore.ts line 927) and throws `TypeError`, the batch never
commits, and no mutation happens at all: the store is unchanged and
`updatedAt` stays at 5 even though the call time is 99. -/
theorem c9_counterexample :
    toggleLike ⟨0, LikeCType.thread, "A", true⟩ 99
        ⟨[((LikeCType.thread, 0),
            ⟨some 1, some 0, some 0, none, none, none, none, none, 0, 5⟩)],
          [⟨0, 0, LikeCType.thread, "A", true, 4⟩], 1⟩ =
      .error .typeError ∧
    runOp ⟨[((LikeCType.thread, 0),
            ⟨some 1, some 0, some 0, none, none, none, none, none, 0, 5⟩)],
          [⟨0, 0, LikeCType.thread, "A", true, 4⟩], 1⟩
        (OpCall.toggle 0 ContentType.thread "A" true 99) =
      ⟨[((LikeCType.thread, 0),
            ⟨some 1, some 0, some 0, none, none, none, none, none, 0, 5⟩)],
          [⟨0, 0, LikeCType.thread, "A", true, 4⟩], 1⟩ ∧
    (5 : Nat) ≠ 99 := by
  refine ⟨rfl, rfl, by decide⟩

/-- C9 (amended): the only ContentItem mutations that ever commit are the
toggle's insert path and the comment append, and each sets the touched
item's `updatedAt` to the commit timestamp while leaving `createdAt`
unchanged; the pure-removal and decrement cases of the spec never commit —
a toggle that finds any existing record for the tuple throws and mutates
nothing. -/
theorem c9_amended_updated_at :
    (∀ (ld : InsertLike) (now : Nat) (db db2 : DB) (d : Doc),
      wf db → getDocIn db (ld.contentType, ld.contentId) = some d →
      toggleLike ld now db = .ok db2 →
      ∃ d2, getDocIn db2 (ld.contentType, ld.contentId) = some d2 ∧
        d2.createdAt = d.createdAt ∧ d2.updatedAt = now) ∧
    (∀ (ld : InsertLike) (now : Nat) (db : DB),
      tupleRecs db ld ≠ [] → toggleLike ld now db = .error .typeError) ∧
    (∀ (cd : InsertComment) (now : Nat) (db db2 : DB) (nid : Nat) (d : Doc),
      wf db → getDocIn db (cd.contentType.toLike, cd.contentId) = some d →
      createComment cd now db = .ok (nid, db2) →
      ∃ d2, getDocIn db2 (cd.contentType.toLike, cd.contentId) = some d2 ∧
        d2.createdAt = d.createdAt ∧ d2.updatedAt = now) := by
  refine ⟨?_, ?_, ?_⟩
  · intro ld now db db2 d hwf hd hok
    obtain ⟨hnodup, hbound, hdocsb⟩ := hwf
    by_cases hE : tupleRecs db ld = []
    · rw [toggleLike_ok_eq ld now db d hbound hE hd] at hok
      have hdb2 := (Except.ok.injEq _ _).mp hok
      have hdocs2 : db2.docs = db.docs.map (fun e =>
          if e.1 = (ld.contentType, ld.contentId)
          then (e.1, e.2.applyInc (if ld.isLike then Field.likes else Field.dislikes) 1
            (some now))
          else e) := by
        rw [← hdb2]
      refine ⟨d.applyInc (if ld.isLike then Field.likes else Field.dislikes) 1 (some now),
        ?_, ?_, ?_⟩
      · show findDoc db2.docs (ld.contentType, ld.contentId) = _
        rw [hdocs2]
        show findDoc (db.docs.map (fun e =>
            if e.1 = (ld.contentType, ld.contentId)
            then (e.1, (fun d0 =>
              d0.applyInc (if ld.isLike then Field.likes else Field.dislikes) 1
                (some now)) e.2)
            else e)) (ld.contentType, ld.contentId) = _
        have hmap := findDoc_map_upd db.docs (ld.contentType, ld.contentId)
          (ld.contentType, ld.contentId)
          (fun d0 => d0.applyInc (if ld.isLike then Field.likes else Field.dislikes) 1
            (some now))
        rw [hmap, if_pos rfl]
        have hfd : findDoc db.docs (ld.contentType, ld.contentId) = some d := hd
        rw [hfd]
        rfl
      · exact applyInc_createdAt d _ 1 (some now)
      · exact applyInc_updatedAt_some d _ 1 now
    · rw [toggleLike_typeError ld now db hE] at hok
      cases hok
  · intro ld now db hne
    exact toggleLike_typeError ld now db hne
  · intro cd now db db2 nid d hwf hd hok
    rw [createComment_ok_eq cd now db d hwf.2.2 hd] at hok
    have hpair := (Except.ok.injEq _ _).mp hok
    have hdb2 := ((Prod.mk.injEq _ _ _ _).mp hpair).2
    have hdocs2 : db2.docs =
        (db.docs ++ [((LikeCType.comment, db.nextId), mkCommentDoc cd now)]).map
        (fun e => if e.1 = (cd.contentType.toLike, cd.contentId)
          then (e.1, e.2.applyInc Field.commentCount 1 (some now)) else e) := by
      rw [← hdb2]
    refine ⟨d.applyInc Field.commentCount 1 (some now), ?_, ?_, ?_⟩
    · show findDoc db2.docs (cd.contentType.toLike, cd.contentId) = _
      rw [hdocs2]
      have hmap := findDoc_map_upd
        (db.docs ++ [((LikeCType.comment, db.nextId), mkCommentDoc cd now)])
        (cd.contentType.toLike, cd.contentId) (cd.contentType.toLike, cd.contentId)
        (fun dd => dd.applyInc Field.commentCount 1 (some now))
      rw [hmap, if_pos rfl, findDoc_append]
      have hfd : findDoc db.docs (cd.contentType.toLike, cd.contentId) = some d := hd
      rw [hfd]
      rfl
    · exact applyInc_createdAt d _ 1 (some now)
    · exact applyInc_updatedAt_some d _ 1 now

/-- Witness for C9 (amended): a fresh like (insert path, `updatedAt` bumped
to 7), a repeat like that throws instead of mutating, and a comment append
(`updatedAt` bumped to 8). -/
theorem c9_amended_updated_at_witness :
    (∃ d2, getDocIn
        (runOp ⟨[((LikeCType.thread, 0),
            ⟨some 0, some 0, some 0, none, none, none, none, none, 0, 3⟩)], [], 1⟩
          (OpCall.toggle 0 ContentType.thread "A" true 7))
        (LikeCType.thread, 0) = some d2 ∧
      d2.createdAt = 0 ∧ d2.updatedAt = 7) ∧
    toggleLike ⟨0, LikeCType.thread, "A", true⟩ 9
        ⟨[((LikeCType.thread, 0),
            ⟨some 1, some 0, some 0, none, none, none, none, none, 0, 7⟩)],
          [⟨1, 0, LikeCType.thread, "A", true, 7⟩], 2⟩ = .error .typeError ∧
    (∃ d2, getDocIn
        (runOp ⟨[((LikeCType.thread, 0),
            ⟨some 0, some 0, some 0, none, none, none, none, none, 0, 3⟩)], [], 1⟩
          (OpCall.comment 0 ContentType.thread "A" "hi" none 8))
        (LikeCType.thread, 0) = some d2 ∧
      d2.createdAt = 0 ∧ d2.updatedAt = 8) := by
  refine ⟨?_, ?_, ?_⟩
  · exact c9_amended_updated_at.1 ⟨0, LikeCType.thread, "A", true⟩ 7
      ⟨[((LikeCType.thread, 0),
          ⟨some 0, some 0, some 0, none, none, none, none, none, 0, 3⟩)], [], 1⟩
      (runOp ⟨[((LikeCType.thread, 0),
          ⟨some 0, some 0, some 0, none, none, none, none, none, 0, 3⟩)], [], 1⟩
        (OpCall.toggle 0 ContentType.thread "A" true 7))
      ⟨some 0, some 0, some 0, none, none, none, none, none, 0, 3⟩
      (by refine ⟨by decide, by decide, by decide⟩) (by decide) rfl
  · exact c9_amended_updated_at.2.1 ⟨0, LikeCType.thread, "A", true⟩ 9
      ⟨[((LikeCType.thread, 0),
          ⟨some 1, some 0, some 0, none, none, none, none, none, 0, 7⟩)],
        [⟨1, 0, LikeCType.thread, "A", true, 7⟩], 2⟩ (by decide)
  · exact c9_amended_updated_at.2.2 ⟨0, ContentType.thread, "A", "hi", none⟩ 8
      ⟨[((LikeCType.thread, 0),
          ⟨some 0, some 0, some 0, none, none, none, none, none, 0, 3⟩)], [], 1⟩
      (runOp ⟨[((LikeCType.thread, 0),
          ⟨some 0, some 0, some 0, none, none, none, none, none, 0, 3⟩)], [], 1⟩
        (OpCall.comment 0 ContentType.thread "A" "hi" none 8)) 1
      ⟨some 0, some 0, some 0, none, none, none, none, none, 0, 3⟩
      (by refine ⟨by decide, by decide, by decide⟩) (by decide) rfl

/-- C10: for every existing content item `getInteractionStats` returns three
defined values: each result is 0 whenever the stored field is missing or 0
(JavaScript falsy under `|| 0`) and equals the stored value otherwise; and
on every store satisfying the counter-ledger invariant — the states the
protocol maintains (see `counterInv_runOps`), where each stored counter is a
record count — all three results are non-negative. -/
theorem c10_stats_defined (contentId : Nat) (ct : ContentType) (db : DB)
    (d : Doc) (hd : getContent ct contentId db = some d) (hinv : counterInv db) :
    ∃ s : Stats, getInteractionStats contentId ct db = .ok s ∧
      s.likes = jsOrZero d.likes ∧ s.dislikes = jsOrZero d.dislikes ∧
      s.comments = jsOrZero d.commentCount ∧
      ((d.likes = none ∨ d.likes = some 0) → s.likes = 0) ∧
      ((d.dislikes = none ∨ d.dislikes = some 0) → s.dislikes = 0) ∧
      ((d.commentCount = none ∨ d.commentCount = some 0) → s.comments = 0) ∧
      0 ≤ s.likes ∧ 0 ≤ s.dislikes ∧ 0 ≤ s.comments := by
  obtain ⟨hL, hD, hC⟩ := hinv ct contentId d hd
  refine ⟨⟨jsOrZero d.likes, jsOrZero d.dislikes, jsOrZero d.commentCount⟩, ?_,
    rfl, rfl, rfl, jsOrZero_zero d.likes, jsOrZero_zero d.dislikes,
    jsOrZero_zero d.commentCount, ?_, ?_, ?_⟩
  · simp [getInteractionStats, hd]
  · apply jsOrZero_nonneg
    rw [hL]
    simp
  · apply jsOrZero_nonneg
    rw [hD]
    simp
  · apply jsOrZero_nonneg
    rw [hC]
    simp

/-- C2 fails on the code: the spec's reconciliation (delete every existing
tuple record, decrement the counters per deleted record, insert iff
`shouldAddNew`) never happens.  Whenever the existing-reaction query returns
any record, the reconciliation loop's first iteration calls its callback
parameter `doc` — which shadows the imported `doc()` — as a function
(firestore.ts line 927) and throws `TypeError`; the batch is never
committed, so no record is deleted, no counter is decremented, nothing is
inserted, and the store is unchanged. -/
theorem c2_reconciliation_throws (i : Nat) (ct : ContentType) (u : String) (l : Bool)
    (now : Nat) (db : DB) (h : tupleRecs db ⟨i, ct.toLike, u, l⟩ ≠ []) :
    toggleLike ⟨i, ct.toLike, u, l⟩ now db = .error .typeError ∧
    runOp db (OpCall.toggle i ct u l now) = db := by
  have h1 := toggleLike_typeError ⟨i, ct.toLike, u, l⟩ now db h
  exact ⟨h1, by simp [runOp, h1]⟩

/-- Witness for C2: user "A" already dislikes content 0 and requests a like;
the call throws and the state — record and counters — is unchanged. -/
theorem c2_reconciliation_throws_witness :
    toggleLike ⟨0, LikeCType.thread, "A", true⟩ 9
        ⟨[((LikeCType.thread, 0),
            ⟨some 0, some 1, some 0, none, none, none, none, none, 0, 2⟩)],
          [⟨0, 0, LikeCType.thread, "A", false, 1⟩], 1⟩ = .error .typeError ∧
    runOp ⟨[((LikeCType.thread, 0),
            ⟨some 0, some 1, some 0, none, none, none, none, none, 0, 2⟩)],
          [⟨0, 0, LikeCType.thread, "A", false, 1⟩], 1⟩
        (OpCall.toggle 0 ContentType.thread "A" true 9) =
      ⟨[((LikeCType.thread, 0),
            ⟨some 0, some 1, some 0, none, none, none, none, none, 0, 2⟩)],
          [⟨0, 0, LikeCType.thread, "A", false, 1⟩], 1⟩ :=
  c2_reconciliation_throws 0 ContentType.thread "A" true 9
    ⟨[((LikeCType.thread, 0),
        ⟨some 0, some 1, some 0, none, none, none, none, none, 0, 2⟩)],
      [⟨0, 0, LikeCType.thread, "A", false, 1⟩], 1⟩ (by decide)

/-- C4 fails on the code: after a first like from a clean tuple state
commits (the insert path), the second like's query finds the new record and
the reconciliation loop throws `TypeError` (shadowed `doc`, firestore.ts
line 927) without committing, so one ReactionRecord remains for the tuple
and the item's `likes` counter stays at its pre-click value plus one — not
zero records with restored counters as the claim requires. -/
theorem c4_second_like_throws (cid : Nat) (lct : LikeCType) (uid : String)
    (db : DB) (d : Doc) (L Dk : Int) (now1 now2 : Nat) (hwf : wf db)
    (hempty : tupleRecs db ⟨cid, lct, uid, true⟩ = [])
    (hd : getDocIn db (lct, cid) = some d)
    (hL : d.likes = some L) (hD : d.dislikes = some Dk) :
    ∃ db1, toggleLike ⟨cid, lct, uid, true⟩ now1 db = .ok db1 ∧
      toggleLike ⟨cid, lct, uid, true⟩ now2 db1 = .error .typeError ∧
      tupleRecs db1 ⟨cid, lct, uid, true⟩ =
        [⟨db.nextId, cid, lct, uid, true, now1⟩] ∧
      (∃ d1, getDocIn db1 (lct, cid) = some d1 ∧ d1.likes = some (L + 1)) ∧
      L + 1 ≠ L := by
  obtain ⟨db1, hok1, hlikes1, hnext1, hwf1, hdoc1, htup1⟩ :=
    toggleLike_clean ⟨cid, lct, uid, true⟩ now1 db d L Dk hwf hempty hd hL hD
  have htup1' : tupleRecs db1 ⟨cid, lct, uid, true⟩ =
      [⟨db.nextId, cid, lct, uid, true, now1⟩] := htup1
  refine ⟨db1, hok1, ?_, htup1', ⟨_, hdoc1, rfl⟩, by omega⟩
  apply toggleLike_typeError
  rw [htup1']
  simp

/-- Witness for C4: "A" likes a fresh thread item twice; the second call
throws and `likes` stays at 3 (= 2 + 1). -/
theorem c4_second_like_throws_witness :
    ∃ db1, toggleLike ⟨0, LikeCType.thread, "A", true⟩ 5
        ⟨[((LikeCType.thread, 0),
            ⟨some 2, some 3, some 0, none, none, none, none, none, 0, 0⟩)], [], 1⟩ =
        .ok db1 ∧
      toggleLike ⟨0, LikeCType.thread, "A", true⟩ 7 db1 = .error .typeError ∧
      tupleRecs db1 ⟨0, LikeCType.thread, "A", true⟩ =
        [⟨1, 0, LikeCType.thread, "A", true, 5⟩] ∧
      (∃ d1, getDocIn db1 (LikeCType.thread, 0) = some d1 ∧
        d1.likes = some (2 + 1)) ∧
      (2 : Int) + 1 ≠ 2 :=
  c4_second_like_throws 0 LikeCType.thread "A"
    ⟨[((LikeCType.thread, 0),
        ⟨some 2, some 3, some 0, none, none, none, none, none, 0, 0⟩)], [], 1⟩
    ⟨some 2, some 3, some 0, none, none, none, none, none, 0, 0⟩ 2 3 5 7
    (by refine ⟨by decide, by decide, by decide⟩) (by decide) (by decide)
    (by decide) (by decide)

/-- C5 fails on the code: after a like from a clean tuple state commits, the
switching dislike call finds the existing like record and the reconciliation
loop throws `TypeError` (shadowed `doc`, firestore.ts line 927) without
committing: the `isLike = true` record survives as the only tuple record and
the item's `dislikes` counter is never incremented — not one
`isLike = false` record with `dislikes` one higher as the claim requires. -/
theorem c5_switch_throws (cid : Nat) (lct : LikeCType) (uid : String)
    (db : DB) (d : Doc) (L Dk : Int) (now1 now2 : Nat) (hwf : wf db)
    (hempty : tupleRecs db ⟨cid, lct, uid, true⟩ = [])
    (hd : getDocIn db (lct, cid) = some d)
    (hL : d.likes = some L) (hD : d.dislikes = some Dk) :
    ∃ db1, toggleLike ⟨cid, lct, uid, true⟩ now1 db = .ok db1 ∧
      toggleLike ⟨cid, lct, uid, false⟩ now2 db1 = .error .typeError ∧
      tupleRecs db1 ⟨cid, lct, uid, false⟩ =
        [⟨db.nextId, cid, lct, uid, true, now1⟩] ∧
      (∀ r ∈ tupleRecs db1 ⟨cid, lct, uid, false⟩, r.isLike = true) ∧
      (∃ d1, getDocIn db1 (lct, cid) = some d1 ∧ d1.dislikes = some Dk) ∧
      Dk ≠ Dk + 1 := by
  obtain ⟨db1, hok1, hlikes1, hnext1, hwf1, hdoc1, htup1⟩ :=
    toggleLike_clean ⟨cid, lct, uid, true⟩ now1 db d L Dk hwf hempty hd hL hD
  have htup2 : tupleRecs db1 ⟨cid, lct, uid, false⟩ =
      [⟨db.nextId, cid, lct, uid, true, now1⟩] := htup1
  refine ⟨db1, hok1, ?_, htup2, ?_, ⟨_, hdoc1, ?_⟩, by omega⟩
  · apply toggleLike_typeError
    rw [htup2]
    simp
  · rw [htup2]
    intro r hr
    have hrr := List.mem_singleton.mp hr
    subst hrr
    rfl
  · show some (Dk + 0) = some Dk
    congr 1
    ring

/-- Witness for C5: "A" likes then requests a dislike; the switch throws,
the like record survives and `dislikes` stays at 3. -/
theorem c5_switch_throws_witness :
    ∃ db1, toggleLike ⟨0, LikeCType.thread, "A", true⟩ 5
        ⟨[((LikeCType.thread, 0),
            ⟨some 2, some 3, some 0, none, none, none, none, none, 0, 0⟩)], [], 1⟩ =
        .ok db1 ∧
      toggleLike ⟨0, LikeCType.thread, "A", false⟩ 7 db1 = .error .typeError ∧
      tupleRecs db1 ⟨0, LikeCType.thread, "A", false⟩ =
        [⟨1, 0, LikeCType.thread, "A", true, 5⟩] ∧
      (∀ r ∈ tupleRecs db1 ⟨0, LikeCType.thread, "A", false⟩, r.isLike = true) ∧
      (∃ d1, getDocIn db1 (LikeCType.thread, 0) = some d1 ∧ d1.dislikes = some 3) ∧
      (3 : Int) ≠ 3 + 1 :=
  c5_switch_throws 0 LikeCType.thread "A"
    ⟨[((LikeCType.thread, 0),
        ⟨some 2, some 3, some 0, none, none, none, none, none, 0, 0⟩)], [], 1⟩
    ⟨some 2, some 3, some 0, none, none, none, none, none, 0, 0⟩ 2 3 5 7
    (by refine ⟨by decide, by decide, by decide⟩) (by decide) (by decide)
    (by decide) (by decide)

theorem counterInv_seed :
    counterInv ⟨[((LikeCType.thread, 0),
        ⟨some 0, some 0, some 0, none, none, none, none, none, 0, 0⟩)], [], 1⟩ := by
  intro ct i d h
  cases ct with
  | thread =>
      cases i with
      | zero =>
          have h2 : (some (⟨some 0, some 0, some 0, none, none, none, none,
              none, 0, 0⟩ : Doc) : Option Doc) = some d := h
          have h4 : (⟨some 0, some 0, some 0, none, none, none, none,
              none, 0, 0⟩ : Doc) = d := Option.some.inj h2
          subst h4
          exact ⟨rfl, rfl, rfl⟩
      | succ n => exact Option.noConfusion h
  | video => exact Option.noConfusion h
  | reel => exact Option.noConfusion h

/-- Witness for C10: the genesis one-item store (counters 0, empty ledger),
which satisfies the counter-ledger invariant. -/
theorem c10_stats_defined_witness :
    ∃ s : Stats, getInteractionStats 0 ContentType.thread
        ⟨[((LikeCType.thread, 0),
            ⟨some 0, some 0, some 0, none, none, none, none, none, 0, 0⟩)], [], 1⟩ =
        .ok s ∧
      s.likes = jsOrZero (some 0) ∧ s.dislikes = jsOrZero (some 0) ∧
      s.comments = jsOrZero (some 0) ∧
      (((some 0 : Option Int) = none ∨ (some (0 : Int)) = some 0) → s.likes = 0) ∧
      (((some 0 : Option Int) = none ∨ (some (0 : Int)) = some 0) → s.dislikes = 0) ∧
      (((some 0 : Option Int) = none ∨ (some (0 : Int)) = some 0) → s.comments = 0) ∧
      0 ≤ s.likes ∧ 0 ≤ s.dislikes ∧ 0 ≤ s.comments :=
  c10_stats_defined 0 ContentType.thread
    ⟨[((LikeCType.thread, 0),
        ⟨some 0, some 0, some 0, none, none, none, none, none, 0, 0⟩)], [], 1⟩
    ⟨some 0, some 0, some 0, none, none, none, none, none, 0, 0⟩ (by decide) counterInv_seed

/-- C1: counter-ledger agreement — starting from any well-formed store
satisfying the invariant, after any finite sequence of completed
toggle/comment operations (no in-flight batches) every content item's
stored `likes` equals the number of ReactionRecords for it with
`isLike = true`, `dislikes` the number with `isLike = false`, and
`commentCount` the number of comment documents referencing it. -/
theorem c1_counter_ledger_agreement (db : DB) (ops : List OpCall)
    (hwf : wf db) (hinv : counterInv db) :
    counterInv (runOps db ops) :=
  counterInv_runOps db ops hwf hinv

/-- Witness for C1: the spec's own scenario — A likes, B dislikes, A
switches to dislike, A comments — run from a fresh one-item store. -/
theorem c1_counter_ledger_agreement_witness :
    wf ⟨[((LikeCType.thread, 0),
        ⟨some 0, some 0, some 0, none, none, none, none, none, 0, 0⟩)], [], 1⟩ ∧
    counterInv ⟨[((LikeCType.thread, 0),
        ⟨some 0, some 0, some 0, none, none, none, none, none, 0, 0⟩)], [], 1⟩ ∧
    counterInv (runOps ⟨[((LikeCType.thread, 0),
        ⟨some 0, some 0, some 0, none, none, none, none, none, 0, 0⟩)], [], 1⟩
      [.toggle 0 ContentType.thread "A" true 1,
       .toggle 0 ContentType.thread "B" false 2,
       .toggle 0 ContentType.thread "A" false 3,
       .comment 0 ContentType.thread "A" "hi" none 4]) :=
  ⟨⟨by decide, by decide, by decide⟩, counterInv_seed,
    c1_counter_ledger_agreement _ _ ⟨by decide, by decide, by decide⟩ counterInv_seed⟩

end SocialSpark
